import Mathlib

/-!
Verification development for the FRM regression workstation
(`frm_regression_model.py`): a shallow embedding of its
regression-diagnostics pipeline — the `if y_var and x_vars` guard, the
degrees-of-freedom check, pandas column extraction, the statsmodels OLS
fit it delegates to, the Durbin-Watson and VIF diagnostics, and the
threshold-based interpretation rules — over exact rationals, together
with theorems settling the specification's claims about it.
-/

open Matrix

/-- Numeric column vector of length `n` over `ℚ` (one data column,
a residual series, or a coefficient vector). -/
abbrev RVec (n : ℕ) := Fin n → ℚ

/-- Rational `n × p` matrix (a design matrix with `n` observation rows). -/
abbrev RMat (n p : ℕ) := Matrix (Fin n) (Fin p) ℚ

/-- Gram matrix `XᵀX` formed inside the statsmodels OLS fit. -/
def gramM {n p : ℕ} (X : RMat n p) : Matrix (Fin p) (Fin p) ℚ :=
  Xᵀ * X

/-- Coefficients of `sm.OLS(y, X).fit()`.  statsmodels computes the
pseudoinverse least-squares solution `pinv(X) @ y`; when `XᵀX` is
invertible that solution is `(XᵀX)⁻¹ Xᵀ y`, embedded here through the
adjugate so that it is executable over `ℚ`
(`ols_normal_equations` and the minimizer theorem below justify it).
When `XᵀX` is singular, statsmodels still returns a coefficient vector
rather than raising — the embedding is likewise total (in that branch
`det⁻¹ = 0`; no theorem below relies on the numeric value there, only
on totality). -/
def ols_params {n p : ℕ} (X : RMat n p) (y : RVec n) : RVec p :=
  ((gramM X).det)⁻¹ • ((gramM X).adjugate *ᵥ (Xᵀ *ᵥ y))

/-- Residuals `model.resid = y − X β̂`. -/
def ols_resid {n p : ℕ} (X : RMat n p) (y : RVec n) : RVec n :=
  y - X *ᵥ ols_params X y

/-- Residual sum of squares `model.ssr = eᵀe`. -/
def ols_ssr {n p : ℕ} (X : RMat n p) (y : RVec n) : ℚ :=
  ols_resid X y ⬝ᵥ ols_resid X y

/-- Sample mean of a column. -/
def meanV {n : ℕ} (y : RVec n) : ℚ :=
  (∑ i, y i) / n

/-- Centered total sum of squares `model.centered_tss`. -/
def centeredTss {n : ℕ} (y : RVec n) : ℚ :=
  ∑ i, (y i - meanV y) ^ 2

/-- The residual-variance estimate σ̂² (`model.scale`):
`ssr / df_resid` with `df_resid = N − p` for a full-rank design. -/
def ols_sigma2 {n p : ℕ} (X : RMat n p) (y : RVec n) : ℚ :=
  ols_ssr X y / ((n : ℚ) - (p : ℚ))

/-- Squared standard error of coefficient `j`: the `j`-th diagonal entry
of `model.cov_params() = σ̂² (XᵀX)⁻¹`, with the inverse again embedded
through the adjugate.  (The reported `model.bse` is its square root,
see `ols_bse`.) -/
def ols_se2 {n p : ℕ} (X : RMat n p) (y : RVec n) (j : Fin p) : ℚ :=
  ols_sigma2 X y * (((gramM X).det)⁻¹ • (gramM X).adjugate) j j

/-- Coefficient of determination `model.rsquared = 1 − ssr / centered_tss`
(the design always carries
an explicit constant column, so statsmodels centers). -/
def ols_rsquared {n p : ℕ} (X : RMat n p) (y : RVec n) : ℚ :=
  1 - ols_ssr X y / centeredTss y

/-- Adjusted R-squared `model.rsquared_adj = 1 − (N−1)/(N−p) · (1 − R²)`. -/
def ols_rsquared_adj {n p : ℕ} (X : RMat n p) (y : RVec n) : ℚ :=
  1 - ((n : ℚ) - 1) / ((n : ℚ) - (p : ℚ)) * (1 - ols_rsquared X y)

/-- F statistic `model.fvalue = mse_model / mse_resid`, with
`mse_model = (centered_tss − ssr)/df_model`, `df_model = p − 1 = k`,
and `mse_resid = ssr/(N−p) = σ̂²`. -/
def ols_fvalue {n p : ℕ} (X : RMat n p) (y : RVec n) : ℚ :=
  ((centeredTss y - ols_ssr X y) / ((p : ℚ) - 1)) / ols_sigma2 X y

/-- Standard error `model.bse j`: square root of the `j`-th diagonal
entry of `σ̂²(XᵀX)⁻¹`
(the float square root leaves ℚ, hence valued in ℝ). -/
noncomputable def ols_bse {n p : ℕ} (X : RMat n p) (y : RVec n) (j : Fin p) : ℝ :=
  Real.sqrt ((ols_se2 X y j : ℚ) : ℝ)

/-- Coefficient t statistic `model.tvalues j = params j / bse j`. -/
noncomputable def ols_tvalue {n p : ℕ} (X : RMat n p) (y : RVec n) (j : Fin p) : ℝ :=
  ((ols_params X y j : ℚ) : ℝ) / ols_bse X y j

/-- Coefficient p-value `model.pvalues j = 2 * t.sf(|tvalues j|, df_resid)`:
the two-sided
tail of the Student-t distribution with `N − p` degrees of freedom.
The Student-t survival function is a transcendental special function of
scipy; it enters the embedding as the explicit parameter `sf` (first
argument: degrees of freedom, second: the cut point). -/
noncomputable def ols_pvalue {n p : ℕ} (sf : ℚ → ℝ → ℝ) (X : RMat n p) (y : RVec n)
    (j : Fin p) : ℝ :=
  2 * sf ((n : ℚ) - (p : ℚ)) |ols_tvalue X y j|

/-! ### Diagnostics: Durbin-Watson and variance inflation factor -/

/-- Sum of squares of a list (`np.sum(a ** 2)`). -/
def sqSum (l : List ℚ) : ℚ :=
  (l.map fun a => a ^ 2).sum

/-- Consecutive differences (`np.diff`). -/
def adjacentDiffs : List ℚ → List ℚ
  | a :: b :: t => (b - a) :: adjacentDiffs (b :: t)
  | _ => []

/-- statsmodels `durbin_watson(resid)`:
`np.sum(np.diff(resid) ** 2) / np.sum(resid ** 2)`, taken over the
residual list in its given (row) order. -/
def durbin_watson (e : List ℚ) : ℚ :=
  sqSum (adjacentDiffs e) / sqSum e

/-- Drop column `j` of a matrix, keeping the remaining columns in order:
statsmodels `exog[:, mask]` with `mask = arange(k_vars) != exog_idx`
(`Fin.succAbove j` enumerates exactly the indices other than `j`,
in increasing order). -/
def dropColumn {n m : ℕ} (M : RMat n (m + 1)) (j : Fin (m + 1)) : RMat n m :=
  fun i l => M i (j.succAbove l)

/-- Column `j` of a matrix as a vector. -/
def columnOf {n k : ℕ} (M : RMat n k) (j : Fin k) : RVec n :=
  fun i => M i j

/-- Uncentered R² of an auxiliary no-constant OLS fit: statsmodels
`OLS(x_i, x_noti).fit().rsquared` with `k_constant = 0` divides by the
uncentered total sum of squares `Σ x_i²`.  (statsmodels would center
instead if the remaining columns carried a constant; the app feeds raw
data columns, which is the generic, no-constant case modelled here.) -/
def rsquared_uncentered {n m : ℕ} (Xaux : RMat n m) (v : RVec n) : ℚ :=
  1 - ols_ssr Xaux v / (v ⬝ᵥ v)

/-- statsmodels `variance_inflation_factor(exog, j)` as called by the
app on `X.values` — the regressor matrix WITHOUT an intercept column:
regress column `j` on the remaining columns (OLS, no constant added),
take the (hence uncentered) R²ⱼ, and return `1 / (1 − R²ⱼ)`.
At `R²ⱼ = 1` the float division `1/0.0` produces IEEE `+inf`,
modelled as `⊤` in `WithTop ℚ`. -/
def variance_inflation_factor {n m : ℕ} (M : RMat n (m + 1)) (j : Fin (m + 1)) :
    WithTop ℚ :=
  let r2 := rsquared_uncentered (dropColumn M j) (columnOf M j)
  if r2 = 1 then ⊤ else ((1 / (1 - r2) : ℚ) : WithTop ℚ)

/-- The app's VIF column:
`[variance_inflation_factor(X.values, i) for i in range(len(X.columns))]`. -/
def vifValues {n : ℕ} : (k : ℕ) → RMat n k → List (WithTop ℚ)
  | 0, _ => []
  | m + 1, M => (List.finRange (m + 1)).map fun j => variance_inflation_factor M j

/-- pandas `Series.max()` over the VIF column (the column is nonempty
whenever the app computes it, and every VIF is nonnegative there, so a
`0` base value is below any attained maximum). -/
def seriesMax (l : List (WithTop ℚ)) : WithTop ℚ :=
  l.foldr max (((0 : ℚ) : WithTop ℚ))

/-! ### Interpretation rules (threshold bands) -/

/-- The three autocorrelation messages of the DW band check. -/
inductive DWLabel where
  | likelyPositive
  | likelyNegative
  | noSignificant
  deriving DecidableEq, Repr

/-- The three collinearity verdict messages of the VIF band check. -/
inductive VIFLabel where
  | severe
  | moderate
  | fine
  deriving DecidableEq, Repr

/-- The app's DW interpretation:
`if dw_stat < 1.5: ... positive ... elif dw_stat > 2.5: ... negative
... else: ... fine`. -/
def classify_dw (dw : ℚ) : DWLabel :=
  if dw < 3 / 2 then .likelyPositive
  else if 5 / 2 < dw then .likelyNegative
  else .noSignificant

/-- The app's collinearity verdict on the maximum VIF:
`if vif.max() > 10: severe elif vif.max() > 5: moderate else: fine`. -/
def classify_vif_max (v : WithTop ℚ) : VIFLabel :=
  if ((10 : ℚ) : WithTop ℚ) < v then .severe
  else if ((5 : ℚ) : WithTop ℚ) < v then .moderate
  else .fine

/-! ### Data model and the analysis pipeline -/

/-- One scalar cell of an uploaded table: numeric, or free text
(pandas keeps a column with text as object dtype). -/
inductive Cell where
  | num (q : ℚ)
  | txt (s : String)
  deriving DecidableEq, Repr

/-- The uploaded table `df`: named columns in order, each a list of
cells (a well-formed upload has all columns of equal length). -/
structure DataFrame where
  cols : List (String × List Cell)
  deriving DecidableEq, Repr

/-- Row count `len(df)`. -/
def DataFrame.nrows (df : DataFrame) : ℕ :=
  (df.cols.headD ("", [])).2.length

/-- Column lookup by name (`df[name]` for a single label):
`none` models the pandas `KeyError`. -/
def DataFrame.lookupCol (df : DataFrame) (c : String) : Option (List Cell) :=
  (df.cols.find? fun p => p.1 == c).map fun p => p.2

/-- Multi-column selection `df[x_vars]`: the first missing label
raises `KeyError` (pandas reports missing labels; the embedding
carries the first). -/
def lookupMany (df : DataFrame) : List String → Except String (List (List Cell))
  | [] => .ok []
  | c :: cs =>
    match df.lookupCol c with
    | none => .error c
    | some col => (lookupMany df cs).map fun rest => col :: rest

/-- Numeric view of a cell (`none` for text). -/
def Cell.asNum : Cell → Option ℚ
  | .num q => some q
  | .txt _ => none

/-- A whole column as numbers, if every cell is numeric. -/
def columnNums (l : List Cell) : Option (List ℚ) :=
  l.mapM Cell.asNum

/-- All selected columns as numbers, if every cell is numeric. -/
def allNums (ls : List (List Cell)) : Option (List (List ℚ)) :=
  ls.mapM columnNums

/-- Column-major lists to an `n × k` matrix (`df[x_vars].values`).
Out-of-range defaults are never reached on a well-formed frame. -/
def toRMat (n k : ℕ) (colsQ : List (List ℚ)) : RMat n k :=
  fun i j => (colsQ.getD (j : ℕ) []).getD (i : ℕ) 0

/-- A numeric column as an `n`-vector (`df[y_var].values`). -/
def toRVec (n : ℕ) (yq : List ℚ) : RVec n :=
  fun i => yq.getD (i : ℕ) 0

/-- statsmodels `add_constant(X)` with the default `prepend=True`:
a leading column of ones ahead of the `k` regressor columns.  (Its
`has_constant='skip'` branch — the regressors already containing a
constant column — is not taken on generic data and is not modelled.) -/
def add_constant {n k : ℕ} (M : RMat n k) : RMat n (k + 1) :=
  fun i j =>
    if h : (j : ℕ) = 0 then 1
    else M i ⟨(j : ℕ) - 1, by have := j.isLt; omega⟩

/-- Everything one successful run shows and exports: the coefficient
table columns (`bse`/`tvalues`/`pvalues` are square roots and tails of
the `se2` data, see `ols_bse`, `ols_tvalue`, `ols_pvalue`), the summary
statistics, the DW diagnostic and its label, and — only when `k > 1` —
the VIF table and the collinearity verdict. -/
structure AnalysisResult where
  names : List String
  params : List ℚ
  se2 : List ℚ
  resid : List ℚ
  rsquared : ℚ
  rsquaredAdj : ℚ
  fvalue : ℚ
  dw : ℚ
  dwLabel : DWLabel
  vifTable : Option (List (String × WithTop ℚ))
  vifVerdict : Option VIFLabel
  nobs : ℕ
  deriving DecidableEq, Repr

/-- The model-and-diagnostics block of the app (source lines 90-139),
run on the already-extracted numeric columns: build `X` from `df[x_vars]`,
add the constant, fit OLS, compute DW and its band label, and, only when
`len(x_vars) > 1`, the per-regressor VIF table and the verdict on its
maximum. -/
def fit_and_diagnose (n : ℕ) (xnames : List String) (xq : List (List ℚ))
    (yq : List ℚ) : AnalysisResult :=
  let k := xnames.length
  let Xnc : RMat n k := toRMat n k xq
  let X : RMat n (k + 1) := add_constant Xnc
  let y : RVec n := toRVec n yq
  let dwv := durbin_watson (List.ofFn (ols_resid X y))
  let vifs := vifValues k Xnc
  { names := "const" :: xnames
  , params := List.ofFn (ols_params X y)
  , se2 := List.ofFn (ols_se2 X y)
  , resid := List.ofFn (ols_resid X y)
  , rsquared := ols_rsquared X y
  , rsquaredAdj := ols_rsquared_adj X y
  , fvalue := ols_fvalue X y
  , dw := dwv
  , dwLabel := classify_dw dwv
  , vifTable := if 1 < k then some (xnames.zip vifs) else none
  , vifVerdict := if 1 < k then some (classify_vif_max (seriesMax vifs)) else none
  , nobs := n }

/-- Everything one run of the app body can end in.  The constructors
`invalidSelection` and `singularDesign` are the specification's
`InvalidSelectionError` / `SingularDesignMatrixError` taxonomy, included
so that theorems can speak about them: the source raises neither (see
the claims below).  `keyError` is the unhandled pandas exception for a
missing column label, `valueError` the unhandled statsmodels/pandas
exception when a selected column is not numeric. -/
inductive RunOutcome where
  | noOutput
  | insufficientSample (n p : ℕ)
  | invalidSelection
  | singularDesign
  | keyError (column : String)
  | valueError
  | ok (r : AnalysisResult)
  deriving DecidableEq, Repr

/-- Evaluates to `true` exactly on a completed fit. -/
def RunOutcome.isOk : RunOutcome → Bool
  | .ok _ => true
  | _ => false

/-- One analysis run of the app body (source lines 84-139), as a function
of the uploaded table and the widget selection:
the `if y_var and x_vars:` truthiness guard (silent no-op when the
independent selection is empty or the dependent name is the empty
string), then the degrees-of-freedom check
`len(df) <= len(x_vars) + 1` (reporting `len(df)` and
`len(x_vars) + 1`), then `X = df[x_vars]` (pandas `KeyError` on a
missing label), `y = df[y_var]` (likewise), then
`sm.OLS(y, X_with_const).fit()` — which raises on non-numeric data and
otherwise always produces a result. -/
def runEngine (df : DataFrame) (yvar : String) (xvars : List String) : RunOutcome :=
  if yvar = "" ∨ xvars = [] then .noOutput
  else if df.nrows ≤ xvars.length + 1 then
    .insufficientSample df.nrows (xvars.length + 1)
  else
    match lookupMany df xvars with
    | .error c => .keyError c
    | .ok xcols =>
      match df.lookupCol yvar with
      | none => .keyError yvar
      | some ycol =>
        match allNums xcols, columnNums ycol with
        | some xq, some yq => .ok (fit_and_diagnose df.nrows xvars xq yq)
        | _, _ => .valueError

/-- The whole visible state a rerun of the script acts on: the uploaded
table, the two selection widgets, and the log of widgets already
rendered (the only thing a run adds to).  The engine keeps no other
state between runs. -/
structure AppState where
  df : DataFrame
  yvar : String
  xvars : List String
  rendered : List String
  deriving Repr

/-- A short rendering tag for the outcome of a run (which banner the
script draws). -/
def renderTag : RunOutcome → String
  | .noOutput => "waiting"
  | .insufficientSample _ _ => "sample-error"
  | .invalidSelection => "selection-error"
  | .singularDesign => "singular-error"
  | .keyError _ => "key-error"
  | .valueError => "value-error"
  | .ok _ => "report"

/-- One Streamlit rerun: compute the outcome from the current inputs
and append its rendering to the page.  The inputs are left untouched. -/
def runOnce (s : AppState) : RunOutcome × AppState :=
  let r := runEngine s.df s.yvar s.xvars
  (r, { s with rendered := s.rendered ++ [renderTag r] })

/-! ### Core lemmas about the OLS fit -/

/-- A sum of squares is nonnegative. -/
theorem dotProduct_self_nonneg {n : ℕ} (v : RVec n) : 0 ≤ v ⬝ᵥ v := by
  apply Finset.sum_nonneg
  intro i _
  exact mul_self_nonneg (v i)

/-- For an invertible Gram matrix the embedded coefficients satisfy the
normal equations `(XᵀX) β̂ = Xᵀ y`. -/
theorem ols_normal_equations {n p : ℕ} (X : RMat n p) (y : RVec n)
    (h : (gramM X).det ≠ 0) :
    gramM X *ᵥ ols_params X y = Xᵀ *ᵥ y := by
  unfold ols_params
  rw [Matrix.mulVec_smul, Matrix.mulVec_mulVec, Matrix.mul_adjugate,
    Matrix.smul_mulVec_assoc, Matrix.one_mulVec, smul_smul,
    inv_mul_cancel₀ h, one_smul]

/-- The residual vector is orthogonal to the column space of `X`. -/
theorem ols_resid_orthogonal {n p : ℕ} (X : RMat n p) (y : RVec n)
    (h : (gramM X).det ≠ 0) :
    Xᵀ *ᵥ ols_resid X y = 0 := by
  unfold ols_resid
  rw [Matrix.mulVec_sub, Matrix.mulVec_mulVec]
  rw [show Xᵀ * X = gramM X from rfl, ols_normal_equations X y h, sub_self]

/-- The embedded coefficient vector is a least-squares minimizer: its
residual sum of squares is no larger than that of any other candidate. -/
theorem ols_minimizes {n p : ℕ} (X : RMat n p) (y : RVec n)
    (h : (gramM X).det ≠ 0) (b : RVec p) :
    ols_ssr X y ≤ (y - X *ᵥ b) ⬝ᵥ (y - X *ᵥ b) := by
  have hdecomp : y - X *ᵥ b = ols_resid X y + X *ᵥ (ols_params X y - b) := by
    unfold ols_resid
    rw [Matrix.mulVec_sub]
    abel
  have horth : ols_resid X y ⬝ᵥ (X *ᵥ (ols_params X y - b)) = 0 := by
    rw [Matrix.dotProduct_mulVec, ← Matrix.transpose_transpose X,
      Matrix.vecMul_transpose, Matrix.transpose_transpose,
      ols_resid_orthogonal X y h, Matrix.zero_dotProduct]
  calc ols_ssr X y
      ≤ ols_ssr X y + (X *ᵥ (ols_params X y - b)) ⬝ᵥ (X *ᵥ (ols_params X y - b)) := by
        have := dotProduct_self_nonneg (X *ᵥ (ols_params X y - b))
        linarith
    _ = (y - X *ᵥ b) ⬝ᵥ (y - X *ᵥ b) := by
        rw [hdecomp, Matrix.add_dotProduct, Matrix.dotProduct_add, Matrix.dotProduct_add,
          horth, Matrix.dotProduct_comm (X *ᵥ (ols_params X y - b)) (ols_resid X y), horth]
        unfold ols_ssr
        ring

/-! ### Core lemmas about the Durbin-Watson computation -/

/-- The list-level sum of squares is the index-level sum. -/
theorem sqSum_eq_range : ∀ (l : List ℚ),
    sqSum l = ∑ i ∈ Finset.range l.length, (l.getD i 0) ^ 2
  | [] => by simp [sqSum]
  | a :: t => by
    have ih := sqSum_eq_range t
    simp only [sqSum, List.map_cons, List.sum_cons, List.length_cons] at *
    rw [Finset.sum_range_succ']
    simp only [List.getD_cons_succ, List.getD_cons_zero]
    rw [← ih]
    ring

/-- The squared `np.diff` sum is the index-level sum
`Σ_{t=2..N} (e_t − e_{t−1})²`. -/
theorem sqSum_adjacentDiffs : ∀ (l : List ℚ),
    sqSum (adjacentDiffs l) =
      ∑ i ∈ Finset.range (l.length - 1), (l.getD (i + 1) 0 - l.getD i 0) ^ 2
  | [] => by simp [adjacentDiffs, sqSum]
  | [a] => by simp [adjacentDiffs, sqSum]
  | a :: b :: t => by
    have ih := sqSum_adjacentDiffs (b :: t)
    simp only [adjacentDiffs, sqSum, List.map_cons, List.sum_cons, List.length_cons,
      Nat.add_sub_cancel] at *
    rw [Finset.sum_range_succ']
    simp only [List.getD_cons_succ, List.getD_cons_zero] at ih ⊢
    rw [← ih]
    ring

/-- The statsmodels `durbin_watson` computation equals the textbook
indexed quotient `Σ_{t=2..N} (e_t − e_{t−1})² / Σ_{t=1..N} e_t²`. -/
theorem durbin_watson_eq_indexed (l : List ℚ) :
    durbin_watson l =
      (∑ i ∈ Finset.range (l.length - 1), (l.getD (i + 1) 0 - l.getD i 0) ^ 2) /
        (∑ i ∈ Finset.range l.length, (l.getD i 0) ^ 2) := by
  rw [durbin_watson, sqSum_adjacentDiffs, sqSum_eq_range]

/-! ### Structural lemmas about the run pipeline -/

/-- Every completed run is the diagnostics block applied to extracted
numeric columns. -/
theorem runEngine_ok_shape (df : DataFrame) (y : String) (xs : List String)
    (r : AnalysisResult) (h : runEngine df y xs = .ok r) :
    ∃ xq yq, r = fit_and_diagnose df.nrows xs xq yq := by
  unfold runEngine at h
  split at h
  · exact absurd h (by simp)
  · split at h
    · exact absurd h (by simp)
    · split at h
      · exact absurd h (by simp)
      · split at h
        · exact absurd h (by simp)
        · split at h
          · rename_i xq yq _ _
            exact ⟨xq, yq, by injection h with h2; rw [h2]⟩
          · exact absurd h (by simp)

/-- No code path of the app produces the specification's
`SingularDesignMatrixError`: the statsmodels fit is total. -/
theorem runEngine_never_singular (df : DataFrame) (y : String) (xs : List String) :
    runEngine df y xs ≠ .singularDesign := by
  intro h
  unfold runEngine at h
  split at h
  · exact absurd h (by simp)
  · split at h
    · exact absurd h (by simp)
    · split at h
      · exact absurd h (by simp)
      · split at h
        · exact absurd h (by simp)
        · split at h
          · exact absurd h (by simp)
          · exact absurd h (by simp)

/-- No code path of the app produces the specification's
`InvalidSelectionError`. -/
theorem runEngine_never_invalidSelection (df : DataFrame) (y : String) (xs : List String) :
    runEngine df y xs ≠ .invalidSelection := by
  intro h
  unfold runEngine at h
  split at h
  · exact absurd h (by simp)
  · split at h
    · exact absurd h (by simp)
    · split at h
      · exact absurd h (by simp)
      · split at h
        · exact absurd h (by simp)
        · split at h
          · exact absurd h (by simp)
          · exact absurd h (by simp)

/-- With a nonempty selection, the run reports an insufficient sample
exactly when `N ≤ k + 1`. -/
theorem runEngine_insufficient_iff (df : DataFrame) (y : String) (xs : List String)
    (hy : y ≠ "") (hxs : xs ≠ []) :
    (runEngine df y xs = .insufficientSample df.nrows (xs.length + 1) ↔
      df.nrows ≤ xs.length + 1) := by
  constructor
  · intro h
    by_contra hlt
    unfold runEngine at h
    rw [if_neg (by simp [hy, hxs])] at h
    rw [if_neg hlt] at h
    split at h
    · exact absurd h (by simp)
    · split at h
      · exact absurd h (by simp)
      · split at h
        · exact absurd h (by simp)
        · exact absurd h (by simp)
  · intro h
    unfold runEngine
    rw [if_neg (by simp [hy, hxs]), if_pos h]

/-- Whenever the run reports an insufficient sample, the carried values
are exactly the row count and the parameter count `k + 1`. -/
theorem runEngine_insufficient_args (df : DataFrame) (y : String) (xs : List String)
    (nv pv : ℕ) (h : runEngine df y xs = .insufficientSample nv pv) :
    nv = df.nrows ∧ pv = xs.length + 1 := by
  unfold runEngine at h
  split at h
  · exact absurd h (by simp)
  · split at h
    · injection h with h1 h2
      exact ⟨h1.symm, h2.symm⟩
    · split at h
      · exact absurd h (by simp)
      · split at h
        · exact absurd h (by simp)
        · split at h
          · exact absurd h (by simp)
          · exact absurd h (by simp)

/-! ### The code's VIF against the specification's VIF -/

/-- A two-regressor matrix `[x1 x2]` (the `k = 2` shape of `df[x_vars]`). -/
def twoColumns {n : ℕ} (x1 x2 : RVec n) : RMat n 2 :=
  fun i j => if (j : ℕ) = 0 then x1 i else x2 i

/-- Closed form of the code's VIF for two regressors: the auxiliary
no-constant regression of `x1` on `x2` gives
`VIF = Σx1² Σx2² / (Σx1² Σx2² − (Σx1x2)²) = 1/(1 − R²ᵤ)` with `R²ᵤ` the
uncentered R² of that regression. -/
theorem vif_two_regressors {n : ℕ} (x1 x2 : RVec n)
    (h1 : x1 ⬝ᵥ x1 ≠ 0) (h2 : x2 ⬝ᵥ x2 ≠ 0)
    (hs : (x1 ⬝ᵥ x1) * (x2 ⬝ᵥ x2) - (x1 ⬝ᵥ x2) ^ 2 ≠ 0) :
    variance_inflation_factor (twoColumns x1 x2) 0 =
      (((x1 ⬝ᵥ x1) * (x2 ⬝ᵥ x2) /
        ((x1 ⬝ᵥ x1) * (x2 ⬝ᵥ x2) - (x1 ⬝ᵥ x2) ^ 2) : ℚ) : WithTop ℚ) := by
  have hX : dropColumn (twoColumns x1 x2) 0 = fun i (_ : Fin 1) => x2 i := by
    funext i l
    have hl : l = 0 := Subsingleton.elim l 0
    subst hl
    rfl
  have hcol : columnOf (twoColumns x1 x2) 0 = x1 := rfl
  set X1 : RMat n 1 := fun i (_ : Fin 1) => x2 i with hX1
  have hpar : ols_params X1 x1 = fun _ => (x2 ⬝ᵥ x2)⁻¹ * (x2 ⬝ᵥ x1) := by
    funext j
    have hj : j = 0 := Subsingleton.elim j 0
    subst hj
    simp only [ols_params, gramM, Matrix.det_fin_one, Matrix.adjugate_fin_one,
      Matrix.one_mulVec, Pi.smul_apply, smul_eq_mul, Matrix.mulVec, Matrix.dotProduct,
      Matrix.mul_apply, Matrix.transpose_apply, Fin.sum_univ_one]
  have hresid : ols_resid X1 x1 =
      fun i => x1 i - (x2 ⬝ᵥ x2)⁻¹ * (x2 ⬝ᵥ x1) * x2 i := by
    funext i
    simp only [ols_resid, hpar, Pi.sub_apply, Matrix.mulVec, Matrix.dotProduct,
      Fin.sum_univ_one]
    ring
  have hssr : ols_ssr X1 x1 =
      (x1 ⬝ᵥ x1) - (x1 ⬝ᵥ x2) ^ 2 / (x2 ⬝ᵥ x2) := by
    simp only [ols_ssr, hresid, Matrix.dotProduct]
    set S11 := ∑ i, x1 i * x1 i with hS11
    set S12 := ∑ i, x1 i * x2 i with hS12
    set S21 := ∑ i, x2 i * x1 i with hS21
    set S22 := ∑ i, x2 i * x2 i with hS22
    have h2122 : S21 = S12 := Finset.sum_congr rfl fun i _ => mul_comm (x2 i) (x1 i)
    have expand : ∀ i : Fin n,
        (x1 i - S22⁻¹ * S21 * x2 i) * (x1 i - S22⁻¹ * S21 * x2 i) =
        x1 i * x1 i
          - 2 * (S22⁻¹ * S21) * (x1 i * x2 i)
          + (S22⁻¹ * S21) ^ 2 * (x2 i * x2 i) := by
      intro i; ring
    rw [Finset.sum_congr rfl fun i _ => expand i]
    rw [Finset.sum_add_distrib, Finset.sum_sub_distrib, ← Finset.mul_sum, ← Finset.mul_sum]
    rw [← hS11, ← hS12, ← hS22, h2122]
    have h22 : S22 ≠ 0 := by
      rw [hS22]
      exact h2
    field_simp
    ring
  have hr2 : rsquared_uncentered (dropColumn (twoColumns x1 x2) 0)
      (columnOf (twoColumns x1 x2) 0) =
      1 - ((x1 ⬝ᵥ x1) - (x1 ⬝ᵥ x2) ^ 2 / (x2 ⬝ᵥ x2)) / (x1 ⬝ᵥ x1) := by
    rw [rsquared_uncentered, hcol, hX, hssr]
  have hssr_ne : (x1 ⬝ᵥ x1) - (x1 ⬝ᵥ x2) ^ 2 / (x2 ⬝ᵥ x2) ≠ 0 := by
    intro h0
    apply hs
    have : ((x1 ⬝ᵥ x1) - (x1 ⬝ᵥ x2) ^ 2 / (x2 ⬝ᵥ x2)) * (x2 ⬝ᵥ x2) = 0 := by
      rw [h0]; ring
    field_simp at this
    linarith [this]
  have hr2ne : rsquared_uncentered (dropColumn (twoColumns x1 x2) 0)
      (columnOf (twoColumns x1 x2) 0) ≠ 1 := by
    rw [hr2]
    intro hcontr
    have : ((x1 ⬝ᵥ x1) - (x1 ⬝ᵥ x2) ^ 2 / (x2 ⬝ᵥ x2)) / (x1 ⬝ᵥ x1) = 0 := by linarith
    rw [div_eq_zero_iff] at this
    rcases this with h0 | h0
    · exact hssr_ne h0
    · exact h1 h0
  rw [variance_inflation_factor]
  simp only [hr2ne, if_false]
  congr 1
  rw [hr2]
  have hd : 1 - (1 - ((x1 ⬝ᵥ x1) - (x1 ⬝ᵥ x2) ^ 2 / (x2 ⬝ᵥ x2)) / (x1 ⬝ᵥ x1)) =
      ((x1 ⬝ᵥ x1) - (x1 ⬝ᵥ x2) ^ 2 / (x2 ⬝ᵥ x2)) / (x1 ⬝ᵥ x1) := by ring
  rw [hd]
  rw [one_div, div_eq_mul_inv, mul_inv, inv_inv]
  field_simp
  ring

/-- The specification's VIF formula, written from the spec's words
(refinement comparator for the VIF claim, NOT a translation of the
source): regress column `j` on the other independent variables WITH an
intercept term, take the centered R²ⱼ of that auxiliary fit, and let
`VIF = 1/(1 − R²ⱼ)`, with `⊤` as the sentinel at `R²ⱼ = 1`. -/
def vifSpecIntercept {n m : ℕ} (M : RMat n (m + 1)) (j : Fin (m + 1)) : WithTop ℚ :=
  let r2 := 1 - ols_ssr (add_constant (dropColumn M j)) (columnOf M j) /
    centeredTss (columnOf M j)
  if r2 = 1 then ⊤ else ((1 / (1 - r2) : ℚ) : WithTop ℚ)

/-- One VIF entry per regressor. -/
theorem vifValues_length {n : ℕ} (k : ℕ) (M : RMat n k) :
    (vifValues k M).length = k := by
  cases k <;> simp [vifValues]

/-! ### The exact statistical definitions required by the specification -/

/-- The specification's exact output contract for one OLS fit on `y` and
the intercept-augmented design `X` (`N = n` observations, `p`
parameters): the coefficients are a least-squares minimizer satisfying
the normal equations, residuals are `y − Xβ̂`, `σ̂² = eᵀe/(N−p)`,
standard errors are square roots of the diagonal of `σ̂²(XᵀX)⁻¹`
(`(XᵀX)⁻¹` here is Mathlib's matrix inverse), `t_j = β̂_j / SE_j`,
two-sided p-values are `2·sf(N−p, |t_j|)` for the Student-t survival
function `sf`, `R² = 1 − SS_res/SS_tot` with centered `SS_tot`,
`R̄² = 1 − (1−R²)(N−1)/(N−p)`, and
`F = ((SS_tot − SS_res)/(p−1)) / (SS_res/(N−p))`. -/
def SpecStats {n p : ℕ} (X : RMat n p) (y : RVec n) : Prop :=
  (∀ b : RVec p, ols_ssr X y ≤ (y - X *ᵥ b) ⬝ᵥ (y - X *ᵥ b))
  ∧ ols_resid X y = y - X *ᵥ ols_params X y
  ∧ gramM X *ᵥ ols_params X y = Xᵀ *ᵥ y
  ∧ ols_sigma2 X y = (ols_resid X y ⬝ᵥ ols_resid X y) / ((n : ℚ) - (p : ℚ))
  ∧ (∀ j, ols_se2 X y j = ols_sigma2 X y * (gramM X)⁻¹ j j)
  ∧ (∀ j, ols_bse X y j = Real.sqrt ((ols_sigma2 X y * (gramM X)⁻¹ j j : ℚ) : ℝ))
  ∧ (∀ j, ols_tvalue X y j = ((ols_params X y j : ℚ) : ℝ) / ols_bse X y j)
  ∧ (∀ (sf : ℚ → ℝ → ℝ) j,
      ols_pvalue sf X y j = 2 * sf ((n : ℚ) - (p : ℚ)) |ols_tvalue X y j|)
  ∧ ols_rsquared X y = 1 - ols_ssr X y / centeredTss y
  ∧ ols_rsquared_adj X y =
      1 - (1 - ols_rsquared X y) * ((n : ℚ) - 1) / ((n : ℚ) - (p : ℚ))
  ∧ ols_fvalue X y =
      ((centeredTss y - ols_ssr X y) / ((p : ℚ) - 1)) /
        (ols_ssr X y / ((n : ℚ) - (p : ℚ)))

/-! ### Concrete tables used as witnesses and counterexamples -/

/-- Three numeric rows: `Y = [1, 2, 4]`, `X = [0, 1, 2]`
(the minimum valid sample for one regressor, `N = k + 2 = 3`). -/
def dsA : DataFrame :=
  ⟨[("Y", [Cell.num 1, Cell.num 2, Cell.num 4]),
    ("X", [Cell.num 0, Cell.num 1, Cell.num 2])]⟩

/-- Two numeric rows (`N = 2 = k + 1` for one regressor). -/
def dsTiny : DataFrame :=
  ⟨[("Y", [Cell.num 1, Cell.num 2]), ("X", [Cell.num 0, Cell.num 1])]⟩

/-- Three rows whose selected regressor column contains text. -/
def dsTxt : DataFrame :=
  ⟨[("Y", [Cell.num 1, Cell.num 2, Cell.num 4]),
    ("X", [Cell.txt "a", Cell.num 1, Cell.num 2])]⟩

/-- Four rows with the regressor column duplicated (`x2 = x1`), so the
intercept-augmented design has perfectly collinear columns and a
singular `XᵀX`. -/
def dsDup : DataFrame :=
  ⟨[("Y", [Cell.num 2, Cell.num 3, Cell.num 5, Cell.num 8]),
    ("x1", [Cell.num 1, Cell.num 2, Cell.num 3, Cell.num 5]),
    ("x2", [Cell.num 1, Cell.num 2, Cell.num 3, Cell.num 5])]⟩

/-- Four rows with two distinct regressors `x1 = [1,2,3,5]`,
`x2 = [1,1,2,2]` (a `k = 2` fit whose VIF table the app computes). -/
def dsC2 : DataFrame :=
  ⟨[("Y", [Cell.num 2, Cell.num 3, Cell.num 5, Cell.num 8]),
    ("x1", [Cell.num 1, Cell.num 2, Cell.num 3, Cell.num 5]),
    ("x2", [Cell.num 1, Cell.num 1, Cell.num 2, Cell.num 2])]⟩

/-- The regressor matrix `df[x_vars].values` of `dsC2`. -/
def mC2 : RMat 4 2 := toRMat 4 2 [[1, 2, 3, 5], [1, 1, 2, 2]]

/-- The VIF table of a completed run (`none` on any other outcome). -/
def vifTableOf : RunOutcome → Option (List (String × WithTop ℚ))
  | .ok r => r.vifTable
  | _ => none

/-! ### The claims -/

/-- Claim C1: with a dependent variable chosen and a nonempty independent
selection, the run reports the insufficient-sample error — carrying
exactly `N = len(df)` and `p = k + 1` — precisely when `N ≤ k + 1`; when
`N > k + 1` no insufficient-sample error can arise, so the fit is
attempted exactly when `N > k + 1`. -/
theorem c1_dof_gate (df : DataFrame) (y : String) (xs : List String)
    (hy : y ≠ "") (hxs : xs ≠ []) :
    (runEngine df y xs = .insufficientSample df.nrows (xs.length + 1) ↔
      df.nrows ≤ xs.length + 1)
    ∧ (∀ nv pv, runEngine df y xs = .insufficientSample nv pv →
        nv = df.nrows ∧ pv = xs.length + 1) :=
  ⟨runEngine_insufficient_iff df y xs hy hxs,
   fun nv pv h => runEngine_insufficient_args df y xs nv pv h⟩

/-- Claim C1 witness: at the boundary, the two-row table with one
regressor (`N = k + 1 = 2`) fails with the error carrying `N = 2`,
`p = 2`, while the three-row table (`N = k + 2 = 3`) completes a fit. -/
theorem c1_dof_gate_witness :
    runEngine dsTiny "Y" ["X"] = .insufficientSample 2 2
    ∧ (runEngine dsA "Y" ["X"]).isOk = true := by
  refine ⟨?_, by decide⟩
  exact (c1_dof_gate dsTiny "Y" ["X"] (by decide) (by decide)).1.mpr (by decide)

/-- Claim C3 counterexample: with the regressor column duplicated the
intercept-augmented design has a singular `XᵀX` (determinant `0`), yet
the run COMPLETES with a fit result — it does not fail with the
specification's `SingularDesignMatrixError`. -/
theorem c3_counterexample :
    (gramM (add_constant (toRMat 4 2 [[1, 2, 3, 5], [1, 2, 3, 5]]))).det = 0
    ∧ (runEngine dsDup "Y" ["x1", "x2"]).isOk = true
    ∧ runEngine dsDup "Y" ["x1", "x2"] ≠ .singularDesign := by
  refine ⟨?_, by decide, by decide⟩
  simp [gramM, add_constant, toRMat, Matrix.det_fin_three, Matrix.mul_apply,
    Matrix.transpose_apply, Fin.sum_univ_four, Fin.sum_univ_succ]

/-- Claim C3 amended: no run ever fails with
`SingularDesignMatrixError`: the pinv-based statsmodels fit is total,
so a perfectly collinear design still yields a fit result (and the
error class does not exist in the code). -/
theorem c3_amended_no_singular_error (df : DataFrame) (y : String) (xs : List String) :
    runEngine df y xs ≠ .singularDesign :=
  runEngine_never_singular df y xs

/-- Claim C3 amended, witness: the duplicated-regressor table in
particular does not produce a singular-design error. -/
theorem c3_amended_no_singular_error_witness :
    runEngine dsDup "Y" ["x1", "x2"] ≠ .singularDesign :=
  c3_amended_no_singular_error dsDup "Y" ["x1", "x2"]

/-- Claim C4 counterexample: an absent dependent name surfaces as an
unhandled pandas `KeyError` — not as `InvalidSelectionError`; an empty
independent selection silently produces no output and no error at all;
and with too few rows the insufficient-sample message appears even
though the requested dependent column does not exist, so no name
validation precedes the sample check. -/
theorem c4_counterexample :
    runEngine dsA "ghost" ["X"] = .keyError "ghost"
    ∧ runEngine dsA "ghost" ["X"] ≠ .invalidSelection
    ∧ runEngine dsA "Y" ([] : List String) = .noOutput
    ∧ runEngine dsA "Y" ([] : List String) ≠ .invalidSelection
    ∧ runEngine dsTiny "ghost" ["X"] = .insufficientSample 2 2 := by
  refine ⟨by decide, by decide, by decide, by decide, by decide⟩

/-- Claim C4 amended: the code never raises `InvalidSelectionError`.
An empty independent selection (or an empty dependent choice) is a
silent no-op; after the guard and the sample check pass, a missing
independent label surfaces as an unhandled pandas `KeyError` from
`df[x_vars]`, and a missing dependent label as a `KeyError` from
`df[y_var]` — after the design matrix `X` was already built. -/
theorem c4_amended_selection_behavior :
    (∀ (df : DataFrame) (y : String) (xs : List String),
      runEngine df y xs ≠ .invalidSelection)
    ∧ (∀ (df : DataFrame) (y : String), runEngine df y [] = .noOutput)
    ∧ (∀ (df : DataFrame) (xs : List String), runEngine df "" xs = .noOutput)
    ∧ (∀ (df : DataFrame) (y : String) (xs : List String) (c : String),
        y ≠ "" → xs ≠ [] → ¬ (df.nrows ≤ xs.length + 1) →
        lookupMany df xs = .error c → runEngine df y xs = .keyError c)
    ∧ (∀ (df : DataFrame) (y : String) (xs : List String),
        y ≠ "" → xs ≠ [] → ¬ (df.nrows ≤ xs.length + 1) →
        (∃ xc, lookupMany df xs = .ok xc) → df.lookupCol y = none →
        runEngine df y xs = .keyError y) := by
  refine ⟨runEngine_never_invalidSelection, ?_, ?_, ?_, ?_⟩
  · intro df y
    unfold runEngine
    rw [if_pos (Or.inr rfl)]
  · intro df xs
    unfold runEngine
    rw [if_pos (Or.inl rfl)]
  · intro df y xs c hy hxs hn hlk
    unfold runEngine
    rw [if_neg (by simp [hy, hxs]), if_neg hn]
    simp only [hlk]
  · intro df y xs hy hxs hn hok hyc
    obtain ⟨xc, hxc⟩ := hok
    unfold runEngine
    rw [if_neg (by simp [hy, hxs]), if_neg hn]
    simp only [hxc, hyc]

/-- Claim C4 amended, witness: on the three-row table, requesting the
absent column `ghost` as dependent variable (with `X` present and
enough rows) yields the unhandled `KeyError "ghost"`. -/
theorem c4_amended_selection_behavior_witness :
    runEngine dsA "ghost" ["X"] = .keyError "ghost" :=
  c4_amended_selection_behavior.2.2.2.2 dsA "ghost" ["X"]
    (by decide) (by decide) (by decide) ⟨_, rfl⟩ rfl

/-- Claim C9: one rerun of the analysis is a pure function of the
uploaded table and the two selection widgets: states agreeing on those
inputs produce the same outcome (whatever else was already rendered),
the table and the selection are left untouched by a run, and a second
run straight after the first returns the identical result. -/
theorem c9_pure_deterministic (s t : AppState)
    (hdf : s.df = t.df) (hy : s.yvar = t.yvar) (hxs : s.xvars = t.xvars) :
    (runOnce s).1 = (runOnce t).1
    ∧ (runOnce s).2.df = s.df
    ∧ (runOnce s).2.yvar = s.yvar
    ∧ (runOnce s).2.xvars = s.xvars
    ∧ (runOnce (runOnce s).2).1 = (runOnce s).1 := by
  refine ⟨?_, rfl, rfl, rfl, rfl⟩
  show runEngine s.df s.yvar s.xvars = runEngine t.df t.yvar t.xvars
  rw [hdf, hy, hxs]

/-- Claim C9 witness: two app states over the same table and selection
but different already-rendered pages give identical outcomes, and the
table survives the run unchanged. -/
theorem c9_pure_deterministic_witness :
    (runOnce ⟨dsA, "Y", ["X"], []⟩).1 = (runOnce ⟨dsA, "Y", ["X"], ["stale"]⟩).1
    ∧ (runOnce ⟨dsA, "Y", ["X"], []⟩).2.df = dsA :=
  ⟨(c9_pure_deterministic ⟨dsA, "Y", ["X"], []⟩ ⟨dsA, "Y", ["X"], ["stale"]⟩
      rfl rfl rfl).1,
   (c9_pure_deterministic ⟨dsA, "Y", ["X"], []⟩ ⟨dsA, "Y", ["X"], ["stale"]⟩
      rfl rfl rfl).2.1⟩

/-- Claim C10: the selected columns are never validated to be numeric —
on a table with `N = 3 > k + 1 = 2` rows whose selected regressor
column holds the text value `"a"`, the run ends in the unhandled
statsmodels/pandas exception (`valueError`), not in any of the
specification's error kinds. -/
theorem c10_no_numeric_validation :
    dsTxt.nrows = 3
    ∧ dsTxt.lookupCol "X" = some [Cell.txt "a", Cell.num 1, Cell.num 2]
    ∧ runEngine dsTxt "Y" ["X"] = .valueError
    ∧ runEngine dsTxt "Y" ["X"] ≠ .invalidSelection
    ∧ runEngine dsTxt "Y" ["X"] ≠ .singularDesign
    ∧ (∀ nv pv, runEngine dsTxt "Y" ["X"] ≠ .insufficientSample nv pv) := by
  refine ⟨by decide, rfl, by decide, by decide, by decide, ?_⟩
  intro nv pv h
  rw [(by decide : runEngine dsTxt "Y" ["X"] = .valueError)] at h
  exact absurd h (by simp)

/-- Claim C5: the app's autocorrelation interpretation of a computed DW
value: strictly below `1.5` it warns of likely positive autocorrelation,
strictly above `2.5` of likely negative autocorrelation, and on
`[1.5, 2.5]` (both boundaries included) it reports no significant
autocorrelation; the label a completed fit carries is exactly this
classification of its DW value. -/
theorem c5_dw_bands :
    (∀ dw : ℚ,
      (classify_dw dw = .likelyPositive ↔ dw < 3 / 2)
      ∧ (classify_dw dw = .likelyNegative ↔ 5 / 2 < dw)
      ∧ (classify_dw dw = .noSignificant ↔ (3 / 2 ≤ dw ∧ dw ≤ 5 / 2)))
    ∧ (∀ (n : ℕ) (xs : List String) (xq : List (List ℚ)) (yq : List ℚ),
        (fit_and_diagnose n xs xq yq).dwLabel =
          classify_dw (fit_and_diagnose n xs xq yq).dw) := by
  constructor
  · intro dw
    unfold classify_dw
    split_ifs with h1 h2 <;> refine ⟨?_, ?_, ?_⟩ <;> simp_all <;> linarith
  · intro n xs xq yq
    rfl

/-- Claim C6: the app's overall collinearity verdict comes from the
maximum VIF across all regressors: above `10` it is severe, in `(5, 10]`
moderate, at or below `5` unremarkable; the per-regressor VIF values and
names are retained in the detail table, which exists exactly when
`k > 1`. -/
theorem c6_vif_verdict :
    (∀ v : WithTop ℚ,
      (classify_vif_max v = .severe ↔ ((10 : ℚ) : WithTop ℚ) < v)
      ∧ (classify_vif_max v = .moderate ↔
          (((5 : ℚ) : WithTop ℚ) < v ∧ v ≤ ((10 : ℚ) : WithTop ℚ)))
      ∧ (classify_vif_max v = .fine ↔ v ≤ ((5 : ℚ) : WithTop ℚ)))
    ∧ (∀ (n : ℕ) (xs : List String) (xq : List (List ℚ)) (yq : List ℚ),
        (fit_and_diagnose n xs xq yq).vifVerdict =
          ((fit_and_diagnose n xs xq yq).vifTable).map
            (fun t => classify_vif_max (seriesMax (t.map fun e => e.2))))
    ∧ (∀ (n : ℕ) (xs : List String) (xq : List (List ℚ)) (yq : List ℚ),
        ((fit_and_diagnose n xs xq yq).vifTable).map (fun t => t.map fun e => e.1) =
          if 1 < xs.length then some xs else none) := by
  refine ⟨?_, ?_, ?_⟩
  · intro v
    unfold classify_vif_max
    split_ifs with h1 h2 <;> refine ⟨?_, ?_, ?_⟩ <;> simp_all <;>
      first
        | exact le_of_not_lt h2
        | exact le_of_not_lt h1
        | exact lt_trans (WithTop.coe_lt_coe.mpr (by norm_num)) h1
  · intro n xs xq yq
    show (if 1 < xs.length then some _ else none) =
      Option.map _ (if 1 < xs.length then some _ else none)
    by_cases h : 1 < xs.length
    · rw [if_pos h, if_pos h, Option.map_some']
      have hz : (xs.zip (vifValues xs.length (toRMat n xs.length xq))).map
          (fun e => e.2) = vifValues xs.length (toRMat n xs.length xq) :=
        List.map_snd_zip _ _ (le_of_eq (vifValues_length _ _))
      rw [hz]
    · rw [if_neg h, if_neg h, Option.map_none']
  · intro n xs xq yq
    show Option.map _ (if 1 < xs.length then some _ else none) = _
    by_cases h : 1 < xs.length
    · rw [if_pos h, if_pos h, Option.map_some']
      have hz : (xs.zip (vifValues xs.length (toRMat n xs.length xq))).map
          (fun e => e.1) = xs :=
        List.map_fst_zip _ _ (ge_of_eq (vifValues_length _ _))
      rw [hz]
    · rw [if_neg h, if_neg h, Option.map_none']

/-- Claim C7: the Durbin-Watson value of every completed run equals
`Σ_{t=2..N} (e_t − e_{t−1})² / Σ_{t=1..N} e_t²` over the run's residual
list; that list is exactly `y − Xβ̂` in the original row order of the
table; and the statistic is order-sensitive — permuting a residual
sequence changes it. -/
theorem c7_durbin_watson :
    (∀ (df : DataFrame) (y : String) (xs : List String) (r : AnalysisResult),
      runEngine df y xs = .ok r →
      r.dw =
        (∑ i ∈ Finset.range (r.resid.length - 1),
            (r.resid.getD (i + 1) 0 - r.resid.getD i 0) ^ 2) /
          (∑ i ∈ Finset.range r.resid.length, (r.resid.getD i 0) ^ 2))
    ∧ (∀ (n : ℕ) (xs : List String) (xq : List (List ℚ)) (yq : List ℚ),
        (fit_and_diagnose n xs xq yq).resid =
          List.ofFn (toRVec n yq -
            add_constant (toRMat n xs.length xq) *ᵥ
              ols_params (add_constant (toRMat n xs.length xq)) (toRVec n yq)))
    ∧ durbin_watson [1, 2, 3] ≠ durbin_watson [1, 3, 2] := by
  refine ⟨?_, ?_, ?_⟩
  · intro df y xs r h
    obtain ⟨xq, yq, rfl⟩ := runEngine_ok_shape df y xs r h
    exact durbin_watson_eq_indexed _
  · intro n xs xq yq
    rfl
  · intro h
    simp only [durbin_watson, sqSum, adjacentDiffs, List.map_cons, List.map_nil,
      List.sum_cons, List.sum_nil] at h
    norm_num at h

/-- Claim C7 witness: on the three-row table the completed fit's DW
value satisfies the indexed formula over its residual list. -/
theorem c7_durbin_watson_witness :
    (fit_and_diagnose 3 ["X"] [[0, 1, 2]] [1, 2, 4]).dw =
      (∑ i ∈ Finset.range
          ((fit_and_diagnose 3 ["X"] [[0, 1, 2]] [1, 2, 4]).resid.length - 1),
          ((fit_and_diagnose 3 ["X"] [[0, 1, 2]] [1, 2, 4]).resid.getD (i + 1) 0 -
            (fit_and_diagnose 3 ["X"] [[0, 1, 2]] [1, 2, 4]).resid.getD i 0) ^ 2) /
        (∑ i ∈ Finset.range (fit_and_diagnose 3 ["X"] [[0, 1, 2]] [1, 2, 4]).resid.length,
          ((fit_and_diagnose 3 ["X"] [[0, 1, 2]] [1, 2, 4]).resid.getD i 0) ^ 2) :=
  c7_durbin_watson.1 dsA "Y" ["X"] (fit_and_diagnose 3 ["X"] [[0, 1, 2]] [1, 2, 4]) rfl

/-- Claim C2 counterexample: on the `k = 2` table `dsC2` the run
completes and its VIF table holds the statsmodels values; the first VIF
is `390/29 ≈ 13.45` — computed from a NO-intercept auxiliary regression
with uncentered R² — while the specification's with-intercept formula
gives `7/2 = 3.5` for the same regressor, so the claim's equality fails
at this input. -/
theorem c2_counterexample :
    (runEngine dsC2 "Y" ["x1", "x2"]).isOk = true
    ∧ vifTableOf (runEngine dsC2 "Y" ["x1", "x2"]) =
        some [("x1", variance_inflation_factor mC2 0),
              ("x2", variance_inflation_factor mC2 1)]
    ∧ variance_inflation_factor mC2 0 = ((390 / 29 : ℚ) : WithTop ℚ)
    ∧ vifSpecIntercept mC2 0 = ((7 / 2 : ℚ) : WithTop ℚ)
    ∧ variance_inflation_factor mC2 0 ≠ vifSpecIntercept mC2 0 := by
  have hr2 : rsquared_uncentered (dropColumn mC2 0) (columnOf mC2 0) = 361 / 390 := by
    simp [rsquared_uncentered, ols_ssr, ols_resid, ols_params, gramM, dropColumn,
      columnOf, mC2, toRMat, Matrix.det_fin_one, Matrix.adjugate_fin_one, Matrix.mulVec,
      Matrix.dotProduct, Matrix.mul_apply, Fin.sum_univ_succ, Fin.sum_univ_four,
      Matrix.transpose_apply]
    norm_num
  have hv1 : variance_inflation_factor mC2 0 = ((390 / 29 : ℚ) : WithTop ℚ) := by
    rw [variance_inflation_factor]
    rw [if_neg (by rw [hr2]; norm_num), hr2]
    exact congrArg _ (by norm_num)
  have hssrI : ols_ssr (add_constant (dropColumn mC2 0)) (columnOf mC2 0) = 5 / 2 := by
    simp [ols_ssr, ols_resid, ols_params, gramM, dropColumn, columnOf, add_constant,
      mC2, toRMat, Matrix.det_fin_two, Matrix.adjugate_fin_two, Matrix.mulVec,
      Matrix.vecMul, Matrix.dotProduct, Matrix.mul_apply, Fin.sum_univ_succ,
      Matrix.transpose_apply, Matrix.cons_val_zero, Matrix.cons_val_one,
      Matrix.head_cons, Matrix.cons_val_succ, Fin.succAbove]
    norm_num
  have hctss : centeredTss (columnOf mC2 0) = 35 / 4 := by
    simp [centeredTss, meanV, columnOf, mC2, toRMat, Fin.sum_univ_succ,
      Fin.val_succ, Fin.val_zero]
    norm_num
  have hv2 : vifSpecIntercept mC2 0 = ((7 / 2 : ℚ) : WithTop ℚ) := by
    rw [vifSpecIntercept]
    rw [hssrI, hctss]
    rw [if_neg (by norm_num)]
    exact congrArg _ (by norm_num)
  refine ⟨by decide, rfl, hv1, hv2, ?_⟩
  rw [hv1, hv2]
  intro hc
  exact (by norm_num : ¬ (390 / 29 : ℚ) = (7 / 2 : ℚ)) (WithTop.coe_inj.mp hc)

/-- Claim C2 amended: the app computes each VIF with statsmodels on the
regressor matrix WITHOUT an intercept column, so
`VIF_j = 1/(1 − R²ⱼ)` where `R²ⱼ` is the UNCENTERED R² of a
no-intercept OLS regression of column `j` on the other independent
variables — for two regressors explicitly
`VIF = Σx1² Σx2² / (Σx1² Σx2² − (Σx1x2)²)`; when `R²ⱼ = 1` exactly the
reported value is the infinity produced by float division (`⊤` here)
rather than undefined; and the VIF table exists precisely when
`k > 1`. -/
theorem c2_amended_vif :
    (∀ (n : ℕ) (x1 x2 : RVec n),
      x1 ⬝ᵥ x1 ≠ 0 → x2 ⬝ᵥ x2 ≠ 0 →
      (x1 ⬝ᵥ x1) * (x2 ⬝ᵥ x2) - (x1 ⬝ᵥ x2) ^ 2 ≠ 0 →
      variance_inflation_factor (twoColumns x1 x2) 0 =
        (((x1 ⬝ᵥ x1) * (x2 ⬝ᵥ x2) /
          ((x1 ⬝ᵥ x1) * (x2 ⬝ᵥ x2) - (x1 ⬝ᵥ x2) ^ 2) : ℚ) : WithTop ℚ))
    ∧ (∀ (n m : ℕ) (M : RMat n (m + 1)) (j : Fin (m + 1)),
        rsquared_uncentered (dropColumn M j) (columnOf M j) = 1 →
        variance_inflation_factor M j = ⊤)
    ∧ (∀ (df : DataFrame) (y : String) (xs : List String) (r : AnalysisResult),
        runEngine df y xs = .ok r → (r.vifTable.isSome ↔ 1 < xs.length)) := by
  refine ⟨fun n x1 x2 h1 h2 hs => vif_two_regressors x1 x2 h1 h2 hs, ?_, ?_⟩
  · intro n m M j h
    rw [variance_inflation_factor, if_pos h]
  · intro df y xs r h
    obtain ⟨xq, yq, rfl⟩ := runEngine_ok_shape df y xs r h
    show (if 1 < xs.length then some
        (xs.zip (vifValues xs.length (toRMat df.nrows xs.length xq)))
      else none).isSome = true ↔ 1 < xs.length
    by_cases hk : 1 < xs.length
    · simp [hk]
    · simp [hk]

/-- First regressor column of the witness table (`[1, 2, 3, 5]`). -/
def vw1 : RVec 4 := toRVec 4 [1, 2, 3, 5]

/-- Second regressor column of the witness table (`[1, 1, 2, 2]`). -/
def vw2 : RVec 4 := toRVec 4 [1, 1, 2, 2]

/-- Claim C2 amended, witness: the closed form holds at the concrete
regressor pair `[1,2,3,5]`, `[1,1,2,2]`. -/
theorem c2_amended_vif_witness :
    (vw1 ⬝ᵥ vw1 ≠ 0) ∧ (vw2 ⬝ᵥ vw2 ≠ 0)
    ∧ ((vw1 ⬝ᵥ vw1) * (vw2 ⬝ᵥ vw2) - (vw1 ⬝ᵥ vw2) ^ 2 ≠ 0)
    ∧ variance_inflation_factor (twoColumns vw1 vw2) 0 =
        (((vw1 ⬝ᵥ vw1) * (vw2 ⬝ᵥ vw2) /
          ((vw1 ⬝ᵥ vw1) * (vw2 ⬝ᵥ vw2) - (vw1 ⬝ᵥ vw2) ^ 2) : ℚ) : WithTop ℚ) := by
  have h1 : vw1 ⬝ᵥ vw1 ≠ 0 := by
    norm_num [vw1, toRVec, Matrix.dotProduct, Fin.sum_univ_succ,
      Fin.val_succ, Fin.val_zero]
  have h2 : vw2 ⬝ᵥ vw2 ≠ 0 := by
    norm_num [vw2, toRVec, Matrix.dotProduct, Fin.sum_univ_succ,
      Fin.val_succ, Fin.val_zero]
  have hs : (vw1 ⬝ᵥ vw1) * (vw2 ⬝ᵥ vw2) - (vw1 ⬝ᵥ vw2) ^ 2 ≠ 0 := by
    norm_num [vw1, vw2, toRVec, Matrix.dotProduct, Fin.sum_univ_succ,
      Fin.val_succ, Fin.val_zero]
  exact ⟨h1, h2, hs, c2_amended_vif.1 4 vw1 vw2 h1 h2 hs⟩

/-- Claim C8: for every fit with invertible `XᵀX` the embedded
statsmodels outputs satisfy the specification's exact definitions
(`SpecStats`: least-squares minimizer with normal equations, residuals
`y − Xβ̂`, `σ̂² = eᵀe/(N−p)`, standard errors from the diagonal of
`σ̂²(XᵀX)⁻¹`, `t = β̂/SE`, two-sided Student-t tails on `N−p` degrees
of freedom, centered `R²`, adjusted `R²`, and the `F` ratio); and the
fields a completed run reports are exactly those embedded statistics
for `X = add_constant(df[x_vars])` and `y = df[y_var]`. -/
theorem c8_ols_statistics :
    (∀ (n p : ℕ) (X : RMat n p) (y : RVec n),
      (gramM X).det ≠ 0 → SpecStats X y)
    ∧ (∀ (n : ℕ) (xs : List String) (xq : List (List ℚ)) (yq : List ℚ),
        (fit_and_diagnose n xs xq yq).params =
          List.ofFn (ols_params (add_constant (toRMat n xs.length xq)) (toRVec n yq))
        ∧ (fit_and_diagnose n xs xq yq).se2 =
          List.ofFn (ols_se2 (add_constant (toRMat n xs.length xq)) (toRVec n yq))
        ∧ (fit_and_diagnose n xs xq yq).resid =
          List.ofFn (ols_resid (add_constant (toRMat n xs.length xq)) (toRVec n yq))
        ∧ (fit_and_diagnose n xs xq yq).rsquared =
          ols_rsquared (add_constant (toRMat n xs.length xq)) (toRVec n yq)
        ∧ (fit_and_diagnose n xs xq yq).rsquaredAdj =
          ols_rsquared_adj (add_constant (toRMat n xs.length xq)) (toRVec n yq)
        ∧ (fit_and_diagnose n xs xq yq).fvalue =
          ols_fvalue (add_constant (toRMat n xs.length xq)) (toRVec n yq)
        ∧ (fit_and_diagnose n xs xq yq).nobs = n) := by
  constructor
  · intro n p X y h
    have hse2 : ∀ j, ols_se2 X y j = ols_sigma2 X y * (gramM X)⁻¹ j j := by
      intro j
      rw [ols_se2, Matrix.inv_def, Ring.inverse_eq_inv']
    refine ⟨fun b => ols_minimizes X y h b, rfl, ols_normal_equations X y h, rfl,
      hse2, ?_, fun j => rfl, fun sf j => rfl, rfl, ?_, ?_⟩
    · intro j
      rw [ols_bse, hse2 j]
    · rw [ols_rsquared_adj]
      ring
    · rfl
  · intro n xs xq yq
    exact ⟨rfl, rfl, rfl, rfl, rfl, rfl, rfl⟩

/-- Intercept-augmented design matrix of the three-row witness table. -/
def xw0 : RMat 3 2 := add_constant (toRMat 3 1 [[0, 1, 2]])

/-- Response vector of the three-row witness table. -/
def yw0 : RVec 3 := toRVec 3 [1, 2, 4]

/-- Claim C8 witness: the three-row fit has invertible `XᵀX`
(determinant `6`), so all the specification's statistical definitions
hold for it. -/
theorem c8_ols_statistics_witness :
    (gramM xw0).det ≠ 0 ∧ SpecStats xw0 yw0 := by
  have h : (gramM xw0).det ≠ 0 := by
    norm_num [gramM, xw0, add_constant, toRMat, Matrix.det_fin_two, Matrix.mul_apply,
      Matrix.transpose_apply, Fin.sum_univ_succ, Fin.val_succ, Fin.val_zero]
  exact ⟨h, c8_ols_statistics.1 3 2 xw0 yw0 h⟩
